import Mathlib

/-!
Shallow embedding of the qontrol GUI repository's waveform-session logic.

Namespace FW embeds the FunctionsWindow class of src/functions_window.py
(the current-control variant); namespace G embeds the FunctionsWindow class
of src/gui.py (the voltage-control variant, whose sampler _auto_update is
the self-contained change-detection code).

Modelling conventions:
* Python floats are embedded as rationals (exact real arithmetic).
* A QLineEdit text field is embedded by the result of float(text): some q
  when the text parses, none when float raises ValueError.
* The driver's value array (driver.i resp. driver.v) is a function from
  channel index to value; every assignment driver.i[ch] = v is recorded in
  an append-only log of (channel, value) writes, so that claims about the
  hardware write sequence can be stated.  A separate attempts log records
  every attempted write, including those that fail with a device error.
* Qt timers are embedded as Boolean flags; a tick event for a timer has an
  effect only when that timer is running (a stopped QTimer does not fire).
* Wall-clock time is the argument of the events that occur at a clock
  reading the handler consumes (autoTick) or that the claims time-stamp
  (toggleOn, rampClick); the Python handlers for the latter never read the
  clock, so the step function ignores that argument, faithfully to source.
-/

namespace FW

/-- State of src/functions_window.py's FunctionsWindow, plus the write log. -/
structure State where
  selectedChannel : ℕ
  activeChannel : Option ℕ
  toggleTimerOn : Bool
  rampTimerOn : Bool
  autoTimerOn : Bool
  toggle_state : Bool
  toggle_value : ℚ
  toggleInput : Option ℚ
  rampMaxInput : Option ℚ
  rampDurInput : Option ℚ
  ramp_max : ℚ
  ramp_duration : ℚ
  ramp_step : ℚ
  current_ramp : ℚ
  ramp_count : ℕ
  start_time : ℚ
  time_data : List ℚ
  current_data : List ℚ
  driver : ℕ → ℚ
  writes : List (ℕ × ℚ)
  attempts : List (ℕ × ℚ)

/-- The fixed step count self.ramp_steps = 10, set in __init__. -/
def ramp_steps : ℕ := 10

/-- A successful hardware write `self.driver.i[ch] = v`: updates the device
array and is recorded in both the write log and the attempt log. -/
def setI (ch : ℕ) (v : ℚ) (s : State) : State :=
  { s with driver := Function.update s.driver ch v,
           writes := s.writes ++ [(ch, v)],
           attempts := s.attempts ++ [(ch, v)] }

/-- The state of the window right after __init__ at wall-clock time t0:
combo on channel 1, no active channel, all timers stopped, empty input
fields, `self.start_time = time.time()`, empty plot data, device at 0. -/
def init (t0 : ℚ) : State :=
  { selectedChannel := 1
    activeChannel := none
    toggleTimerOn := false
    rampTimerOn := false
    autoTimerOn := false
    toggle_state := false
    toggle_value := 0
    toggleInput := none
    rampMaxInput := none
    rampDurInput := none
    ramp_max := 0
    ramp_duration := 0
    ramp_step := 0
    current_ramp := 0
    ramp_count := 0
    start_time := t0
    time_data := []
    current_data := []
    driver := fun _ => 0
    writes := []
    attempts := [] }

/-- toggle_current(self, checked): on checked, capture the parsed amplitude
(default 0.0 on ValueError), reset the phase, start the toggle and
auto-update timers; on unchecked, stop the toggle timer, write 0 to the
currently *selected* channel (the local `ch = self.get_selected_channel()`),
and stop the auto-update timer. -/
def toggle_current (checked : Bool) (s : State) : State :=
  let ch := s.selectedChannel
  if checked then
    { s with activeChannel := some ch,
             toggle_value := s.toggleInput.getD 0,
             toggle_state := false,
             toggleTimerOn := true,
             autoTimerOn := true }
  else
    setI ch 0 { s with toggleTimerOn := false, autoTimerOn := false }

/-- perform_toggle(self): on each toggle tick, write 0 and clear the phase
when `self.toggle_state` is set, else write `self.toggle_value` and set it.
Returns unchanged when `self.active_channel is None`. -/
def perform_toggle (s : State) : State :=
  match s.activeChannel with
  | none => s
  | some ch =>
    if s.toggle_state then setI ch 0 { s with toggle_state := false }
    else setI ch s.toggle_value { s with toggle_state := true }

/-- start_ramp(self): make the selected channel active, parse max
(default 0.0) and duration (default 1000.0), derive the step size
`self.ramp_max / self.ramp_steps`, reset `self.current_ramp` and
`self.ramp_count`, write the initial 0 to the channel, and start the ramp
and auto-update timers. -/
def start_ramp (s : State) : State :=
  let ch := s.selectedChannel
  let m := s.rampMaxInput.getD 0
  let d := s.rampDurInput.getD 1000
  setI ch 0
    { s with activeChannel := some ch,
             ramp_max := m,
             ramp_duration := d,
             ramp_step := m / (ramp_steps : ℚ),
             current_ramp := 0,
             ramp_count := 0,
             rampTimerOn := true,
             autoTimerOn := true }

/-- perform_ramp(self): increment `self.ramp_count` and accumulate
`self.current_ramp += self.ramp_step`; when the count is still at most
`self.ramp_steps`, write the accumulated value (the ok flag tells whether
the device accepts the write: on a DeviceError the attempt is logged, the
exception propagates out of the handler, and nothing further runs — the
write was the last statement of that branch); otherwise stop the ramp and
auto-update timers without writing. -/
def perform_ramp (ok : Bool) (s : State) : State :=
  let s1 := { s with ramp_count := s.ramp_count + 1,
                     current_ramp := s.current_ramp + s.ramp_step }
  if s1.ramp_count ≤ ramp_steps then
    match s1.activeChannel with
    | some ch =>
        if ok then setI ch s1.current_ramp s1
        else { s1 with attempts := s1.attempts ++ [(ch, s1.current_ramp)] }
    | none => s1
  else
    { s1 with rampTimerOn := false, autoTimerOn := false }

/-- Embeds _update_plot(self), fired by the auto-update timer at wall-clock time t:
when a channel is active, append `time.time() - self.start_time` to
`self.time_data` and the channel's realized value to `self.current_data`. -/
def update_plot (t : ℚ) (s : State) : State :=
  match s.activeChannel with
  | none => s
  | some ch =>
      { s with time_data := s.time_data ++ [t - s.start_time],
               current_data := s.current_data ++ [s.driver ch] }

/-- The user/timer events that drive the window.  The rational argument of
toggleOn, rampClick and autoTick is the wall-clock time at which the event
fires; only the auto-update handler reads the clock. -/
inductive Event where
  | selectChannel (ch : ℕ)
  | editToggleInput (p : Option ℚ)
  | editRampMax (p : Option ℚ)
  | editRampDur (p : Option ℚ)
  | toggleOn (t : ℚ)
  | toggleOff
  | toggleTick
  | rampClick (t : ℚ)
  | rampTick (ok : Bool)
  | autoTick (t : ℚ)
deriving DecidableEq

/-- One scheduler step.  Edit events change only the corresponding input
field; a timer's tick dispatches to its handler only while that timer is
running. -/
def step : Event → State → State
  | .selectChannel ch, s => { s with selectedChannel := ch }
  | .editToggleInput p, s => { s with toggleInput := p }
  | .editRampMax p, s => { s with rampMaxInput := p }
  | .editRampDur p, s => { s with rampDurInput := p }
  | .toggleOn _, s => toggle_current true s
  | .toggleOff, s => toggle_current false s
  | .toggleTick, s => if s.toggleTimerOn then perform_toggle s else s
  | .rampClick _, s => start_ramp s
  | .rampTick ok, s => if s.rampTimerOn then perform_ramp ok s else s
  | .autoTick t, s => if s.autoTimerOn then update_plot t s else s

/-- Run a sequence of events from a state. -/
def run (es : List Event) (s : State) : State :=
  es.foldl (fun s e => step e s) s

@[simp] theorem run_nil (s : State) : run [] s = s := rfl

@[simp] theorem run_cons (e : Event) (es : List Event) (s : State) :
    run (e :: es) s = run es (step e s) := rfl

@[simp] theorem run_append (l₁ l₂ : List Event) (s : State) :
    run (l₁ ++ l₂) s = run l₂ (run l₁ s) :=
  List.foldl_append _ _ _ _

theorem update_plot_writes (t : ℚ) (s : State) :
    (update_plot t s).writes = s.writes := by
  cases h : s.activeChannel <;> simp [update_plot, h]

theorem update_plot_toggleTimerOn (t : ℚ) (s : State) :
    (update_plot t s).toggleTimerOn = s.toggleTimerOn := by
  cases h : s.activeChannel <;> simp [update_plot, h]

theorem update_plot_rampTimerOn (t : ℚ) (s : State) :
    (update_plot t s).rampTimerOn = s.rampTimerOn := by
  cases h : s.activeChannel <;> simp [update_plot, h]

theorem step_start_time (e : Event) (s : State) :
    (step e s).start_time = s.start_time := by
  cases e <;>
    simp only [step, toggle_current, perform_toggle, start_ramp, perform_ramp, update_plot,
      setI] <;>
    (repeat' split) <;>
    rfl

theorem run_start_time (es : List Event) (s : State) :
    (run es s).start_time = s.start_time := by
  induction es generalizing s with
  | nil => rfl
  | cons e es ih => rw [run_cons, ih, step_start_time]

/-- Events fired by the three timers (as opposed to user actions). -/
def isTickEvent : Event → Bool
  | .toggleTick => true
  | .rampTick _ => true
  | .autoTick _ => true
  | _ => false

/-- Once both the toggle timer and the ramp timer are stopped, timer events
perform no further hardware write (the auto-update timer never writes). -/
theorem quiet_run (tr : List Event) : ∀ s : State,
    (∀ e ∈ tr, isTickEvent e = true) →
    s.toggleTimerOn = false → s.rampTimerOn = false →
    (run tr s).writes = s.writes ∧
    (run tr s).toggleTimerOn = false ∧ (run tr s).rampTimerOn = false := by
  induction tr with
  | nil => exact fun s _ h1 h2 => ⟨rfl, h1, h2⟩
  | cons e tr ih =>
    intro s htr h1 h2
    have he : isTickEvent e = true := htr e (List.mem_cons_self e tr)
    have htr' : ∀ e ∈ tr, isTickEvent e = true :=
      fun e h => htr e (List.mem_cons_of_mem _ h)
    cases e <;> simp only [isTickEvent] at he <;> try exact Bool.noConfusion he
    case toggleTick =>
      rw [run_cons]
      have hs : step Event.toggleTick s = s := by simp [step, h1]
      rw [hs]; exact ih s htr' h1 h2
    case rampTick ok =>
      rw [run_cons]
      have hs : step (Event.rampTick ok) s = s := by simp [step, h2]
      rw [hs]; exact ih s htr' h1 h2
    case autoTick t =>
      rw [run_cons]
      by_cases ha : s.autoTimerOn = true
      · have hs : step (Event.autoTick t) s = update_plot t s := by simp [step, ha]
        rw [hs]
        have := ih (update_plot t s) htr'
          (by rw [update_plot_toggleTimerOn]; exact h1)
          (by rw [update_plot_rampTimerOn]; exact h2)
        refine ⟨?_, this.2.1, this.2.2⟩
        rw [this.1, update_plot_writes]
      · have hs : step (Event.autoTick t) s = s := by
          simp only [step]; rw [if_neg ha]
        rw [hs]; exact ih s htr' h1 h2

/-- Running n successful ramp ticks while the ramp timer is on and the step
budget is not exhausted writes the accumulated values
current_ramp + (k+1) * ramp_step for k = 0, …, n-1, advances the counter
and the accumulator, and leaves the timers, the active channel and the step
size alone. -/
theorem run_ramp_ticks (n : ℕ) : ∀ (s : State) (ch : ℕ),
    s.rampTimerOn = true → s.activeChannel = some ch →
    s.ramp_count + n ≤ ramp_steps →
    (run (List.replicate n (Event.rampTick true)) s).writes
        = s.writes ++ (List.range n).map
            (fun k : ℕ => (ch, s.current_ramp + ((k : ℚ) + 1) * s.ramp_step)) ∧
    (run (List.replicate n (Event.rampTick true)) s).ramp_count
        = s.ramp_count + n ∧
    (run (List.replicate n (Event.rampTick true)) s).current_ramp
        = s.current_ramp + (n : ℚ) * s.ramp_step ∧
    (run (List.replicate n (Event.rampTick true)) s).rampTimerOn = true ∧
    (run (List.replicate n (Event.rampTick true)) s).activeChannel = some ch ∧
    (run (List.replicate n (Event.rampTick true)) s).ramp_step = s.ramp_step ∧
    (run (List.replicate n (Event.rampTick true)) s).toggleTimerOn
        = s.toggleTimerOn ∧
    (run (List.replicate n (Event.rampTick true)) s).autoTimerOn
        = s.autoTimerOn := by
  induction n with
  | zero => intro s ch h1 h2 _; simp [h1, h2]
  | succ n ih =>
    intro s ch h1 h2 h3
    have hcount : s.ramp_count + 1 ≤ ramp_steps := by omega
    have hstep : step (Event.rampTick true) s =
        setI ch (s.current_ramp + s.ramp_step)
          { s with ramp_count := s.ramp_count + 1,
                   current_ramp := s.current_ramp + s.ramp_step } := by
      simp [step, h1, perform_ramp, h2, hcount]
    rw [List.replicate_succ, run_cons, hstep]
    obtain ⟨hw, hc, hcr, hrt, hac, hst, htt, hat⟩ :=
      ih (setI ch (s.current_ramp + s.ramp_step)
          { s with ramp_count := s.ramp_count + 1,
                   current_ramp := s.current_ramp + s.ramp_step })
        ch h1 h2 (by simpa [setI] using (by omega : s.ramp_count + 1 + n ≤ ramp_steps))
    dsimp only [setI] at hw hc hcr hrt hac hst htt hat ⊢
    refine ⟨?_, ?_, ?_, hrt, hac, ?_, ?_, ?_⟩
    · rw [hw, List.append_assoc, List.singleton_append, List.range_succ_eq_map,
        List.map_cons, List.map_map]
      congr 1
      refine List.cons_eq_cons.mpr ⟨Prod.ext rfl ?_, ?_⟩
      · push_cast; ring
      · refine List.map_congr_left fun k _ => Prod.ext rfl ?_
        simp only [Function.comp]
        push_cast
        ring
    · rw [hc]; omega
    · rw [hcr]; push_cast; ring
    · rw [hst]
    · rw [htt]
    · rw [hat]

/-- Recognizer for toggle-timer tick events. -/
def isToggleTick : Event → Bool
  | .toggleTick => true
  | _ => false

/-- Events that either edit the toggle amplitude field or fire a toggle
tick: the events that may occur between activation and stop in a toggle
run whose amplitude field the user keeps editing. -/
def isToggleEditOrTick : Event → Bool
  | .editToggleInput _ => true
  | .toggleTick => true
  | _ => false

/-- The square-wave value pattern perform_toggle produces over n ticks
starting from phase b: with phase false the next write is the amplitude,
with phase true it is 0, and each write flips the phase. -/
def togglePat (A : ℚ) : Bool → ℕ → List ℚ
  | _, 0 => []
  | false, n + 1 => A :: togglePat A true n
  | true, n + 1 => 0 :: togglePat A false n

/-- Closed form of the square-wave pattern. -/
theorem togglePat_eq (A : ℚ) : ∀ (n : ℕ) (b : Bool),
    togglePat A b n
      = (List.range n).map
          (fun k : ℕ => if ((k % 2 = 0) ↔ b = false) then A else (0 : ℚ)) := by
  intro n
  induction n with
  | zero => intro b; cases b <;> rfl
  | succ n ih =>
    intro b
    rw [List.range_succ_eq_map, List.map_cons, List.map_map]
    cases b
    · simp only [togglePat]
      rw [ih true]
      refine List.cons_eq_cons.mpr ⟨by norm_num, ?_⟩
      refine List.map_congr_left fun k _ => ?_
      simp only [Function.comp]
      by_cases hk : k % 2 = 0
      · have h2 : ¬((k + 1) % 2 = 0) := by omega
        simp [hk, h2]
      · have h2 : (k + 1) % 2 = 0 := by omega
        simp [hk, h2]
    · simp only [togglePat]
      rw [ih false]
      refine List.cons_eq_cons.mpr ⟨by norm_num, ?_⟩
      refine List.map_congr_left fun k _ => ?_
      simp only [Function.comp]
      by_cases hk : k % 2 = 0
      · have h2 : ¬((k + 1) % 2 = 0) := by omega
        simp [hk, h2]
      · have h2 : (k + 1) % 2 = 0 := by omega
        simp [hk, h2]

/-- Running any mix of toggle ticks and amplitude-field edits while the
toggle timer is on writes exactly the square-wave pattern of the amplitude
that was captured at activation — the edits are invisible to the written
values — and preserves the timer, the active channel and the captured
amplitude. -/
theorem run_toggle_mixed (tr : List Event) : ∀ (s : State) (ch : ℕ) (b : Bool),
    (∀ e ∈ tr, isToggleEditOrTick e = true) →
    s.toggleTimerOn = true → s.activeChannel = some ch → s.toggle_state = b →
    (run tr s).writes
        = s.writes ++ (togglePat s.toggle_value b (tr.countP isToggleTick)).map
            (fun v => (ch, v)) ∧
    (run tr s).toggleTimerOn = true ∧
    (run tr s).activeChannel = some ch ∧
    (run tr s).toggle_value = s.toggle_value := by
  induction tr with
  | nil =>
    intro s ch b _ h1 h2 _
    refine ⟨?_, h1, h2, rfl⟩
    cases b <;> simp [togglePat]
  | cons e tr ih =>
    intro s ch b htr h1 h2 hb
    have he : isToggleEditOrTick e = true := htr e (List.mem_cons_self e tr)
    have htr' : ∀ e ∈ tr, isToggleEditOrTick e = true :=
      fun e h => htr e (List.mem_cons_of_mem _ h)
    cases e <;> simp only [isToggleEditOrTick] at he <;> try exact Bool.noConfusion he
    case editToggleInput p =>
      rw [run_cons]
      have hstep : step (Event.editToggleInput p) s = { s with toggleInput := p } := rfl
      rw [hstep]
      obtain ⟨hw, h1', h2', hv⟩ :=
        ih { s with toggleInput := p } ch b htr' h1 h2 hb
      dsimp only at hw hv
      refine ⟨?_, h1', h2', hv⟩
      rw [hw]
      simp [List.countP_cons, isToggleTick]
    case toggleTick =>
      rw [run_cons]
      cases hbval : b
      · rw [hbval] at hb
        have hstep : step Event.toggleTick s =
            setI ch s.toggle_value { s with toggle_state := true } := by
          simp [step, h1, perform_toggle, h2, hb]
        rw [hstep]
        obtain ⟨hw, h1', h2', hv⟩ :=
          ih (setI ch s.toggle_value { s with toggle_state := true }) ch true htr' h1 h2 rfl
        dsimp only [setI] at hw h1' h2' hv ⊢
        refine ⟨?_, h1', h2', hv⟩
        rw [hw]
        simp only [List.countP_cons, isToggleTick, if_pos, List.append_assoc,
          List.singleton_append]
        rw [togglePat]
        simp
      · rw [hbval] at hb
        have hstep : step Event.toggleTick s =
            setI ch 0 { s with toggle_state := false } := by
          simp [step, h1, perform_toggle, h2, hb]
        rw [hstep]
        obtain ⟨hw, h1', h2', hv⟩ :=
          ih (setI ch 0 { s with toggle_state := false }) ch false htr' h1 h2 rfl
        dsimp only [setI] at hw h1' h2' hv ⊢
        refine ⟨?_, h1', h2', hv⟩
        rw [hw]
        simp only [List.countP_cons, isToggleTick, if_pos, List.append_assoc,
          List.singleton_append]
        rw [togglePat]
        simp

/-- Running sampler ticks at times ts while the auto-update timer is on and
a channel is active appends one sample per tick, time-stamped t - start_time,
and keeps the timer and the active channel. -/
theorem run_auto_ticks (ts : List ℚ) : ∀ (s : State) (ch : ℕ),
    s.autoTimerOn = true → s.activeChannel = some ch →
    (run (ts.map Event.autoTick) s).time_data
        = s.time_data ++ ts.map (fun t => t - s.start_time) ∧
    (run (ts.map Event.autoTick) s).autoTimerOn = true ∧
    (run (ts.map Event.autoTick) s).activeChannel = some ch := by
  induction ts with
  | nil => intro s ch h1 h2; exact ⟨by simp, h1, h2⟩
  | cons t ts ih =>
    intro s ch h1 h2
    have hstep : step (Event.autoTick t) s =
        { s with time_data := s.time_data ++ [t - s.start_time],
                 current_data := s.current_data ++ [s.driver ch] } := by
      simp [step, h1, update_plot, h2]
    rw [List.map_cons, run_cons, hstep]
    obtain ⟨hw, h1', h2'⟩ :=
      ih { s with time_data := s.time_data ++ [t - s.start_time],
                  current_data := s.current_data ++ [s.driver ch] } ch h1 h2
    dsimp only at hw h1' h2'
    refine ⟨?_, h1', h2'⟩
    rw [hw]
    simp

theorem countP_toggleTick_replicate (n : ℕ) :
    (List.replicate n Event.toggleTick).countP isToggleTick = n := by
  induction n with
  | zero => rfl
  | succ n ih => simp [List.replicate_succ, List.countP_cons, isToggleTick, ih]

end FW

namespace G

/-- Nearest integer to x with exact ties broken towards the even integer,
as IEEE-754 formatting does: at a tie (x exactly halfway between
consecutive integers) the even neighbour is chosen, otherwise this is the
ordinary nearest integer. -/
def roundHalfEven (x : ℚ) : ℤ :=
  if 2 * x = 2 * (⌊x⌋ : ℚ) + 1 then (if 2 ∣ ⌊x⌋ then ⌊x⌋ else ⌊x⌋ + 1)
  else round x

/-- The displayed text a value renders to under the code's two-decimal
formatting: the pair of (whether a minus sign is printed, the signed
number of hundredths the digits show).  Python prints the sign exactly
when the value is negative — so small negatives render as a distinct
"-0.00" — and rounds the hundredths to nearest with ties to even (exact
ties occur at dyadic values such as 0.125, which doubles do represent).
Two values render to the same text exactly when their pairs are equal.
The float negative zero, which also prints a sign, has no counterpart in
the rational model. -/
def fmt2 (v : ℚ) : Bool × ℤ := (decide (v < 0), roundHalfEven (100 * v))

/-- The slice of src/gui.py's FunctionsWindow state that its sampler
callback _auto_update touches: the active channel, the device array
driver.v, each channel card's voltage_label text (as its fmt2 rendering),
the list of "changed" flash events fired so far (with the new displayed
rendering), and the plot data. -/
structure State where
  activeChannel : Option ℕ
  driver : ℕ → ℚ
  label : ℕ → Bool × ℤ
  changedEvents : List (ℕ × (Bool × ℤ))
  time_data : List ℚ
  voltage_data : List ℚ
  start_time : ℚ

/-- Embeds _auto_update(self) at wall-clock time t: return unchanged when no
channel is active; otherwise read the active channel's realized value,
render it to two decimals, set the card label to it, fire one "changed"
event exactly when the rendered text differs from the label's previous
text, and append the sample to the plot data. -/
def auto_update (t : ℚ) (s : State) : State :=
  match s.activeChannel with
  | none => s
  | some ch =>
      let old := s.label ch
      let new := fmt2 (s.driver ch)
      { s with label := Function.update s.label ch new,
               changedEvents :=
                 if old ≠ new then s.changedEvents ++ [(ch, new)]
                 else s.changedEvents,
               time_data := s.time_data ++ [t - s.start_time],
               voltage_data := s.voltage_data ++ [s.driver ch] }

/-- Events of the sampler model: a device-side change of a channel's
realized value (the mocked Output Channel Interface of the spec's testable
property), and a sampler tick at a wall-clock time. -/
inductive Event where
  | devWrite (ch : ℕ) (v : ℚ)
  | autoTick (t : ℚ)

/-- One step of the sampler model. -/
def step : Event → State → State
  | .devWrite ch v, s => { s with driver := Function.update s.driver ch v }
  | .autoTick t, s => auto_update t s

/-- Run a sequence of sampler-model events. -/
def run (es : List Event) (s : State) : State :=
  es.foldl (fun s e => step e s) s

@[simp] theorem g_run_nil (s : State) : run [] s = s := rfl

@[simp] theorem g_run_cons (e : Event) (es : List Event) (s : State) :
    run (e :: es) s = run es (step e s) := rfl

end G

/-!
Claim theorems.  Each claim of the specification is settled against the
embeddings above; 1-indexed write numbering in the spec corresponds to
0-indexed positions in the write logs.
-/

/-- Trace exhibiting C1: Toggle runs on channel 1 (amplitude 5, one tick),
then the user selects channel 2 and activates Ramp there while the toggle
timer is still running. -/
def c1trace : List FW.Event :=
  [FW.Event.editToggleInput (some 5), FW.Event.selectChannel 1, FW.Event.toggleOn 0,
   FW.Event.toggleTick, FW.Event.selectChannel 2, FW.Event.editRampMax (some 3),
   FW.Event.rampClick 1]

/-- C1, counterexample: with Toggle running on channel A = 1 (toggle timer
on, active channel 1 just before the ramp button is pressed), activating
Ramp on channel B = 2 produces the write log [(1, 5), (2, 0)]: no write of
0 to channel 1 occurs at all — in particular not between B's activation
and the first write to B, which is B's own initial 0 — so the claimed
"exactly one write of 0 to channel A" is false. -/
theorem c1_counterexample :
    (FW.run (c1trace.take 6) (FW.init 0)).toggleTimerOn = true ∧
    (FW.run (c1trace.take 6) (FW.init 0)).activeChannel = some 1 ∧
    (FW.run c1trace (FW.init 0)).writes = [(1, 5), (2, 0)] ∧
    (1, (0 : ℚ)) ∉ (FW.run c1trace (FW.init 0)).writes := by
  refine ⟨rfl, rfl, ?_, ?_⟩ <;> decide

/-- C1, amended: activating a channel while another is running Toggle or
Ramp does not stop the prior session and writes nothing to the prior
channel: Ramp activation performs exactly one write, of 0, to the newly
selected channel, Toggle activation performs no write at all, and neither
activation stops the other mode's timer. -/
theorem c1_amended (s : FW.State) (t u : ℚ) :
    (FW.step (FW.Event.rampClick t) s).writes = s.writes ++ [(s.selectedChannel, 0)] ∧
    (FW.step (FW.Event.toggleOn u) s).writes = s.writes ∧
    (FW.step (FW.Event.rampClick t) s).toggleTimerOn = s.toggleTimerOn ∧
    (FW.step (FW.Event.toggleOn u) s).rampTimerOn = s.rampTimerOn :=
  ⟨rfl, rfl, rfl, rfl⟩

/-- The events leading into a fresh ramp run: enter max M and duration D,
select channel ch, press the Ramp button (which itself writes the initial
0). -/
def rampPre (M D : ℚ) (ch : ℕ) : List FW.Event :=
  [FW.Event.editRampMax (some M), FW.Event.editRampDur (some D),
   FW.Event.selectChannel ch, FW.Event.rampClick 0]

/-- C3: a ramp run commands 0 on activation with the step counter reset to
0; the ten following ticks make the write log 11 entries long (the
activation 0 plus exactly 10 tick writes); the 11th tick adds no write and
stops the ramp and auto-update timers (the toggle timer being off as well,
the session is Idle). -/
theorem c3_ramp_exactly_ten_writes (M D : ℚ) (ch : ℕ) :
    (FW.run (rampPre M D ch) (FW.init 0)).writes = [(ch, 0)] ∧
    (FW.run (rampPre M D ch) (FW.init 0)).ramp_count = 0 ∧
    (FW.run (rampPre M D ch ++ List.replicate 10 (FW.Event.rampTick true))
        (FW.init 0)).writes.length = 11 ∧
    (FW.run (rampPre M D ch ++ List.replicate 11 (FW.Event.rampTick true))
        (FW.init 0)).writes
      = (FW.run (rampPre M D ch ++ List.replicate 10 (FW.Event.rampTick true))
          (FW.init 0)).writes ∧
    (FW.run (rampPre M D ch ++ List.replicate 11 (FW.Event.rampTick true))
        (FW.init 0)).rampTimerOn = false ∧
    (FW.run (rampPre M D ch ++ List.replicate 11 (FW.Event.rampTick true))
        (FW.init 0)).autoTimerOn = false ∧
    (FW.run (rampPre M D ch ++ List.replicate 11 (FW.Event.rampTick true))
        (FW.init 0)).toggleTimerOn = false := by
  obtain ⟨hw, hc, hcr, hrt, hac, hst, htt, hat⟩ :=
    FW.run_ramp_ticks 10 (FW.run (rampPre M D ch) (FW.init 0)) ch rfl rfl
      (by norm_num [rampPre, FW.run, FW.step, FW.start_ramp, FW.setI, FW.init, FW.ramp_steps])
  have hsplit : List.replicate 11 (FW.Event.rampTick true)
      = List.replicate 10 (FW.Event.rampTick true) ++ [FW.Event.rampTick true] := rfl
  rw [hsplit, ← List.append_assoc]
  simp only [FW.run_append]
  generalize hgen : FW.run (List.replicate 10 (FW.Event.rampTick true))
      (FW.run (rampPre M D ch) (FW.init 0)) = s10 at hw hc hcr hrt hac htt ⊢
  have hrun1 : FW.run [FW.Event.rampTick true] s10
      = FW.step (FW.Event.rampTick true) s10 := rfl
  have hcond : ¬(s10.ramp_count + 1 ≤ FW.ramp_steps) := by
    rw [hc]
    norm_num [FW.ramp_steps]
  have hstep11 : FW.step (FW.Event.rampTick true) s10
      = { s10 with ramp_count := s10.ramp_count + 1,
                   current_ramp := s10.current_ramp + s10.ramp_step,
                   rampTimerOn := false, autoTimerOn := false } := by
    simp only [FW.step, hrt, if_true, FW.perform_ramp]
    rw [if_neg hcond]
  refine ⟨rfl, rfl, ?_, ?_, ?_, ?_, ?_⟩
  · rw [hw]
    simp [rampPre, FW.run, FW.step, FW.start_ramp, FW.setI, FW.init]
  · rw [hrun1, hstep11]
  · rw [hrun1, hstep11]
  · rw [hrun1, hstep11]
  · rw [hrun1, hstep11]
    exact htt.trans rfl

/-- C4: from activation (which resets the phase to false), the n-th toggle
tick write (1-indexed) commands the captured amplitude A when n is odd and
0 when n is even: position k (0-indexed) of the write log is (ch, A)
exactly when k % 2 = 0. -/
theorem c4_toggle_square_wave (A : ℚ) (ch n : ℕ) :
    (FW.run ([FW.Event.editToggleInput (some A), FW.Event.selectChannel ch,
        FW.Event.toggleOn 0] ++ List.replicate n FW.Event.toggleTick) (FW.init 0)).writes
      = (List.range n).map (fun k : ℕ => (ch, if k % 2 = 0 then A else (0 : ℚ))) := by
  rw [FW.run_append]
  obtain ⟨hw, -, -, -⟩ :=
    FW.run_toggle_mixed (List.replicate n FW.Event.toggleTick)
      (FW.run [FW.Event.editToggleInput (some A), FW.Event.selectChannel ch,
        FW.Event.toggleOn 0] (FW.init 0)) ch false
      (fun e he => by rw [List.eq_of_mem_replicate he]; rfl) rfl rfl rfl
  rw [hw, FW.countP_toggleTick_replicate]
  have hv : (FW.run [FW.Event.editToggleInput (some A), FW.Event.selectChannel ch,
      FW.Event.toggleOn 0] (FW.init 0)).toggle_value = A := rfl
  have hw0 : (FW.run [FW.Event.editToggleInput (some A), FW.Event.selectChannel ch,
      FW.Event.toggleOn 0] (FW.init 0)).writes = [] := rfl
  rw [hv, hw0, FW.togglePat_eq, List.nil_append, List.map_map]
  refine List.map_congr_left fun k _ => ?_
  by_cases hk : k % 2 = 0 <;> simp [hk, Function.comp]

/-- C2: for a ramp run with parsed maximum M > 0, the full write log is the
activation 0 followed by the ten tick writes k * (M/10) for k = 1..10; the
tick writes (the log with the activation entry dropped) are strictly
increasing; and the last written value is exactly M. -/
theorem c2_ramp_values (M D : ℚ) (ch : ℕ) (hM : 0 < M) :
    (FW.run (rampPre M D ch ++ List.replicate 10 (FW.Event.rampTick true))
        (FW.init 0)).writes
      = (ch, 0) :: (List.range 10).map
          (fun k : ℕ => (ch, ((k : ℚ) + 1) * (M / 10))) ∧
    List.Chain' (fun a b : ℕ × ℚ => a.2 < b.2)
      ((FW.run (rampPre M D ch ++ List.replicate 10 (FW.Event.rampTick true))
          (FW.init 0)).writes.drop 1) ∧
    (FW.run (rampPre M D ch ++ List.replicate 10 (FW.Event.rampTick true))
        (FW.init 0)).writes.getLast? = some (ch, M) := by
  obtain ⟨hw, -, -, -, -, -, -, -⟩ :=
    FW.run_ramp_ticks 10 (FW.run (rampPre M D ch) (FW.init 0)) ch rfl rfl
      (by norm_num [rampPre, FW.run, FW.step, FW.start_ramp, FW.setI, FW.init, FW.ramp_steps])
  have hw0 : (FW.run (rampPre M D ch) (FW.init 0)).writes = [(ch, 0)] := rfl
  have hc0 : (FW.run (rampPre M D ch) (FW.init 0)).current_ramp = 0 := rfl
  have hs0 : (FW.run (rampPre M D ch) (FW.init 0)).ramp_step = M / 10 := by
    norm_num [rampPre, FW.run, FW.step, FW.start_ramp, FW.setI, FW.init, FW.ramp_steps]
  have hmain : (FW.run (rampPre M D ch ++ List.replicate 10 (FW.Event.rampTick true))
      (FW.init 0)).writes
      = (ch, 0) :: (List.range 10).map
          (fun k : ℕ => (ch, ((k : ℚ) + 1) * (M / 10))) := by
    rw [FW.run_append, hw, hw0]
    simp only [hc0, hs0, zero_add, List.singleton_append]
  have hd : 0 < M / 10 := by positivity
  refine ⟨hmain, ?_, ?_⟩
  · rw [hmain]
    rw [show List.range 10 = [0, 1, 2, 3, 4, 5, 6, 7, 8, 9] from rfl]
    simp only [List.map_cons, List.map_nil, List.drop_succ_cons, List.drop_zero,
      List.chain'_cons, List.chain'_singleton, and_true]
    norm_num
    refine ⟨?_, ?_, ?_, ?_, ?_, ?_, ?_, ?_, ?_⟩ <;> nlinarith [hd]
  · rw [hmain]
    rw [show List.range 10 = [0, 1, 2, 3, 4, 5, 6, 7, 8, 9] from rfl]
    simp only [List.map_cons, List.map_nil, List.getLast?_cons_cons, List.getLast?_singleton]
    norm_num
    ring_nf

/-- Witness for C2 at M = 10, D = 1000, ch = 1. -/
theorem c2_ramp_values_witness :
    (0 : ℚ) < 10 ∧
    ((FW.run (rampPre 10 1000 1 ++ List.replicate 10 (FW.Event.rampTick true))
        (FW.init 0)).writes
      = (1, 0) :: (List.range 10).map
          (fun k : ℕ => (1, ((k : ℚ) + 1) * ((10 : ℚ) / 10))) ∧
    List.Chain' (fun a b : ℕ × ℚ => a.2 < b.2)
      ((FW.run (rampPre 10 1000 1 ++ List.replicate 10 (FW.Event.rampTick true))
          (FW.init 0)).writes.drop 1) ∧
    (FW.run (rampPre 10 1000 1 ++ List.replicate 10 (FW.Event.rampTick true))
        (FW.init 0)).writes.getLast? = some (1, 10)) :=
  ⟨by norm_num, c2_ramp_values 10 1000 1 (by norm_num)⟩

/-- C10: the toggle amplitude is captured exactly once, at switch-on: over
any mix of toggle ticks and amplitude-field edits after activation, the
written values form the square wave of the amplitude A that was in the
field at activation (tick write k, 0-indexed, is A for even k and 0 for
odd k), and the captured amplitude remains A no matter what is typed. -/
theorem c10_amplitude_captured_once (A : ℚ) (ch : ℕ) (tr : List FW.Event)
    (htr : ∀ e ∈ tr, FW.isToggleEditOrTick e = true) :
    (FW.run ([FW.Event.editToggleInput (some A), FW.Event.selectChannel ch,
        FW.Event.toggleOn 0] ++ tr) (FW.init 0)).writes
      = (List.range (tr.countP FW.isToggleTick)).map
          (fun k : ℕ => (ch, if k % 2 = 0 then A else (0 : ℚ))) ∧
    (FW.run ([FW.Event.editToggleInput (some A), FW.Event.selectChannel ch,
        FW.Event.toggleOn 0] ++ tr) (FW.init 0)).toggle_value = A := by
  rw [FW.run_append]
  obtain ⟨hw, -, -, hv⟩ :=
    FW.run_toggle_mixed tr
      (FW.run [FW.Event.editToggleInput (some A), FW.Event.selectChannel ch,
        FW.Event.toggleOn 0] (FW.init 0)) ch false htr rfl rfl rfl
  have hv0 : (FW.run [FW.Event.editToggleInput (some A), FW.Event.selectChannel ch,
      FW.Event.toggleOn 0] (FW.init 0)).toggle_value = A := rfl
  have hw0 : (FW.run [FW.Event.editToggleInput (some A), FW.Event.selectChannel ch,
      FW.Event.toggleOn 0] (FW.init 0)).writes = [] := rfl
  refine ⟨?_, hv.trans hv0⟩
  rw [hw, hv0, hw0, FW.togglePat_eq, List.nil_append, List.map_map]
  refine List.map_congr_left fun k _ => ?_
  by_cases hk : k % 2 = 0 <;> simp [hk, Function.comp]

/-- Witness for C10: amplitude 5 captured on channel 1; an edit of the
field to 99 between the two ticks changes nothing. -/
theorem c10_amplitude_captured_once_witness :
    (∀ e ∈ [FW.Event.toggleTick, FW.Event.editToggleInput (some 99), FW.Event.toggleTick],
        FW.isToggleEditOrTick e = true) ∧
    ((FW.run ([FW.Event.editToggleInput (some 5), FW.Event.selectChannel 1,
        FW.Event.toggleOn 0] ++ [FW.Event.toggleTick, FW.Event.editToggleInput (some 99),
        FW.Event.toggleTick]) (FW.init 0)).writes
      = (List.range (([FW.Event.toggleTick, FW.Event.editToggleInput (some 99),
            FW.Event.toggleTick] : List FW.Event).countP FW.isToggleTick)).map
          (fun k : ℕ => (1, if k % 2 = 0 then (5 : ℚ) else (0 : ℚ))) ∧
     (FW.run ([FW.Event.editToggleInput (some 5), FW.Event.selectChannel 1,
        FW.Event.toggleOn 0] ++ [FW.Event.toggleTick, FW.Event.editToggleInput (some 99),
        FW.Event.toggleTick]) (FW.init 0)).toggle_value = 5) :=
  ⟨by decide, c10_amplitude_captured_once 5 1 _ (by decide)⟩

/-- Trace exhibiting C5: Toggle on channel 1 (amplitude 5, one tick), the
user then selects channel 2 and switches the toggle off. -/
def c5trace : List FW.Event :=
  [FW.Event.editToggleInput (some 5), FW.Event.selectChannel 1, FW.Event.toggleOn 0,
   FW.Event.toggleTick, FW.Event.selectChannel 2, FW.Event.toggleOff]

/-- C5, counterexample: the stop write of the trace is (2, 0) — it goes to
the newly *selected* channel 2, not to channel 1 on which the Toggle
session was active (the session's active channel is still 1 when the stop
happens), refuting "that write commands the value 0 to the channel on
which the Toggle session was active". -/
theorem c5_counterexample :
    (FW.run c5trace (FW.init 0)).writes = [(1, 5), (2, 0)] ∧
    (FW.run c5trace (FW.init 0)).activeChannel = some 1 := by
  refine ⟨?_, ?_⟩ <;> decide

/-- C5, amended: stopping Toggle performs exactly one additional write, of
0, to the *currently selected* channel (equal to the active channel only
when the selection has not changed since activation); it stops the toggle
and auto-update timers, and — provided no ramp is running — later timer
events perform no further write. -/
theorem c5_amended (s : FW.State) (tr : List FW.Event)
    (hramp : s.rampTimerOn = false)
    (htr : ∀ e ∈ tr, FW.isTickEvent e = true) :
    (FW.step FW.Event.toggleOff s).writes = s.writes ++ [(s.selectedChannel, 0)] ∧
    (FW.step FW.Event.toggleOff s).toggleTimerOn = false ∧
    (FW.step FW.Event.toggleOff s).autoTimerOn = false ∧
    (FW.run tr (FW.step FW.Event.toggleOff s)).writes
      = (FW.step FW.Event.toggleOff s).writes := by
  refine ⟨rfl, rfl, rfl, ?_⟩
  exact (FW.quiet_run tr (FW.step FW.Event.toggleOff s) htr rfl hramp).1

/-- The state of a toggle run on channel 1 after one tick, used to witness
C5's amended theorem. -/
def c5wState : FW.State :=
  FW.run [FW.Event.editToggleInput (some 5), FW.Event.selectChannel 1,
    FW.Event.toggleOn 0, FW.Event.toggleTick] (FW.init 0)

/-- Witness for C5's amended theorem. -/
theorem c5_amended_witness :
    (c5wState.rampTimerOn = false ∧
     ∀ e ∈ [FW.Event.toggleTick, FW.Event.autoTick 9, FW.Event.rampTick true],
        FW.isTickEvent e = true) ∧
    ((FW.step FW.Event.toggleOff c5wState).writes
        = c5wState.writes ++ [(c5wState.selectedChannel, 0)] ∧
     (FW.step FW.Event.toggleOff c5wState).toggleTimerOn = false ∧
     (FW.step FW.Event.toggleOff c5wState).autoTimerOn = false ∧
     (FW.run [FW.Event.toggleTick, FW.Event.autoTick 9, FW.Event.rampTick true]
        (FW.step FW.Event.toggleOff c5wState)).writes
       = (FW.step FW.Event.toggleOff c5wState).writes) :=
  ⟨⟨rfl, by decide⟩, c5_amended c5wState _ rfl (by decide)⟩

/-- Trace exhibiting C6: a ramp to max 10 on channel 1 whose first tick
write fails with a device error, followed by one more (successful) tick. -/
def c6trace : List FW.Event :=
  [FW.Event.editRampMax (some 10), FW.Event.selectChannel 1, FW.Event.rampClick 0,
   FW.Event.rampTick false]

/-- C6, counterexample: after the failing first tick the ramp timer is
still running (the session is not Idle; the attempt log shows the failed
attempt of value 1) and the very next tick attempts — and performs — a
further write (of value 2), refuting "the session transitions to Idle, no
further writes are attempted". -/
theorem c6_counterexample :
    (FW.run c6trace (FW.init 0)).rampTimerOn = true ∧
    (FW.run c6trace (FW.init 0)).writes = [(1, 0)] ∧
    (FW.run c6trace (FW.init 0)).attempts = [(1, 0), (1, 1)] ∧
    (FW.run (c6trace ++ [FW.Event.rampTick true]) (FW.init 0)).writes
      = [(1, 0), (1, 2)] := by
  refine ⟨rfl, ?_, ?_, ?_⟩ <;>
    norm_num [c6trace, FW.run, FW.step, FW.perform_ramp, FW.start_ramp, FW.setI,
      FW.init, FW.ramp_steps]

/-- C6, amended: a failing write in perform_ramp propagates as an uncaught
exception: the ramp (and auto-update) timers keep running, the step counter
and accumulator still advance, the failed value is only recorded as an
attempt, and the next tick performs a further write — there is no error
handling, no transition to Idle and no error report in the handler. -/
theorem c6_amended (s : FW.State) (ch : ℕ)
    (h1 : s.rampTimerOn = true) (h2 : s.activeChannel = some ch)
    (h3 : s.ramp_count + 2 ≤ FW.ramp_steps) :
    (FW.step (FW.Event.rampTick false) s).rampTimerOn = true ∧
    (FW.step (FW.Event.rampTick false) s).autoTimerOn = s.autoTimerOn ∧
    (FW.step (FW.Event.rampTick false) s).writes = s.writes ∧
    (FW.step (FW.Event.rampTick false) s).attempts
      = s.attempts ++ [(ch, s.current_ramp + s.ramp_step)] ∧
    (FW.step (FW.Event.rampTick false) s).ramp_count = s.ramp_count + 1 ∧
    (FW.step (FW.Event.rampTick true) (FW.step (FW.Event.rampTick false) s)).writes
      = s.writes ++ [(ch, s.current_ramp + 2 * s.ramp_step)] := by
  have hc1 : s.ramp_count + 1 ≤ FW.ramp_steps := by omega
  have hstepF : FW.step (FW.Event.rampTick false) s
      = { s with ramp_count := s.ramp_count + 1,
                 current_ramp := s.current_ramp + s.ramp_step,
                 attempts := s.attempts ++ [(ch, s.current_ramp + s.ramp_step)] } := by
    simp [FW.step, h1, FW.perform_ramp, h2, hc1]
  have hc2 : s.ramp_count + 1 + 1 ≤ FW.ramp_steps := by omega
  have hstepT : FW.step (FW.Event.rampTick true) (FW.step (FW.Event.rampTick false) s)
      = FW.setI ch (s.current_ramp + s.ramp_step + s.ramp_step)
          { s with ramp_count := s.ramp_count + 1 + 1,
                   current_ramp := s.current_ramp + s.ramp_step + s.ramp_step,
                   attempts := s.attempts ++ [(ch, s.current_ramp + s.ramp_step)] } := by
    rw [hstepF]
    simp [FW.step, h1, FW.perform_ramp, h2, hc2]
  refine ⟨by rw [hstepF]; exact h1, by rw [hstepF], by rw [hstepF], by rw [hstepF],
    by rw [hstepF], ?_⟩
  rw [hstepT]
  dsimp only [FW.setI]
  have hval : s.current_ramp + s.ramp_step + s.ramp_step
      = s.current_ramp + 2 * s.ramp_step := by ring
  rw [hval]

/-- State just after activating the ramp of c6trace, used to witness C6's
amended theorem. -/
def c6wState : FW.State :=
  FW.run [FW.Event.editRampMax (some 10), FW.Event.selectChannel 1,
    FW.Event.rampClick 0] (FW.init 0)

/-- Witness for C6's amended theorem. -/
theorem c6_amended_witness :
    (c6wState.rampTimerOn = true ∧ c6wState.activeChannel = some 1 ∧
     c6wState.ramp_count + 2 ≤ FW.ramp_steps) ∧
    ((FW.step (FW.Event.rampTick false) c6wState).rampTimerOn = true ∧
     (FW.step (FW.Event.rampTick false) c6wState).autoTimerOn = c6wState.autoTimerOn ∧
     (FW.step (FW.Event.rampTick false) c6wState).writes = c6wState.writes ∧
     (FW.step (FW.Event.rampTick false) c6wState).attempts
       = c6wState.attempts ++ [(1, c6wState.current_ramp + c6wState.ramp_step)] ∧
     (FW.step (FW.Event.rampTick false) c6wState).ramp_count = c6wState.ramp_count + 1 ∧
     (FW.step (FW.Event.rampTick true) (FW.step (FW.Event.rampTick false) c6wState)).writes
       = c6wState.writes ++ [(1, c6wState.current_ramp + 2 * c6wState.ramp_step)]) :=
  ⟨⟨rfl, rfl, by decide⟩, c6_amended c6wState 1 rfl rfl (by decide)⟩

/-- Trace exhibiting C7: the window is constructed at time 0, a toggle
session is activated on channel 1 at time 5 and the first sampler tick
fires at time 5. -/
def c7trace : List FW.Event :=
  [FW.Event.selectChannel 1, FW.Event.toggleOn 5, FW.Event.autoTick 5]

/-- C7, counterexample: the first sample recorded after the session starts
has elapsed time 5 — measured from the start_time captured at window
construction (time 0), which session activation never updates — not
approximately 0 as the claim requires of a timestamp captured at
activation. -/
theorem c7_counterexample :
    (FW.run c7trace (FW.init 0)).time_data = [5] ∧
    (FW.run c7trace (FW.init 0)).start_time = 0 := by
  refine ⟨?_, rfl⟩
  norm_num [c7trace, FW.run, FW.step, FW.toggle_current, FW.update_plot, FW.init]

/-- C7, amended: elapsed times come from a single timestamp captured once
at window *construction*: no event ever changes start_time, and a sampler
tick at wall time t appends the sample t - start_time.  Hence sample
deltas equal wall-clock deltas (no double counting), but the first sample
of a session shows the time since window construction, not since the
session's activation. -/
theorem c7_amended (t0 : ℚ) (es : List FW.Event) (s : FW.State) (t : ℚ) (ch : ℕ)
    (h1 : s.autoTimerOn = true) (h2 : s.activeChannel = some ch) :
    (FW.run es (FW.init t0)).start_time = t0 ∧
    (FW.step (FW.Event.autoTick t) s).time_data = s.time_data ++ [t - s.start_time] := by
  refine ⟨?_, ?_⟩
  · rw [FW.run_start_time]; rfl
  · simp [FW.step, h1, FW.update_plot, h2]

/-- State of a toggle session on channel 2 in a window constructed at
time 3, used to witness C7's amended theorem. -/
def c7wState : FW.State :=
  FW.run [FW.Event.selectChannel 2, FW.Event.toggleOn 4] (FW.init 3)

/-- Witness for C7's amended theorem. -/
theorem c7_amended_witness :
    (c7wState.autoTimerOn = true ∧ c7wState.activeChannel = some 2) ∧
    ((FW.run [FW.Event.toggleOn 0] (FW.init 3)).start_time = 3 ∧
     (FW.step (FW.Event.autoTick 7) c7wState).time_data
       = c7wState.time_data ++ [7 - c7wState.start_time]) :=
  ⟨⟨rfl, rfl⟩, c7_amended 3 [FW.Event.toggleOn 0] c7wState 7 2 rfl rfl⟩

/-- Trace exhibiting C8: a toggle session on channel 1 records one sample
at time 1 and is stopped; a new ramp session is then activated at time 2
and its first sampler tick fires at time 3. -/
def c8trace : List FW.Event :=
  [FW.Event.selectChannel 1, FW.Event.toggleOn 0, FW.Event.autoTick 1,
   FW.Event.toggleOff, FW.Event.editRampMax (some 2), FW.Event.rampClick 2,
   FW.Event.autoTick 3]

/-- C8, counterexample: when the new (ramp) session starts, the telemetry
buffer still holds the sample of the previous session — it is not cleared —
so after the new session's first sampler tick the buffer holds 2 samples,
not 1. -/
theorem c8_counterexample :
    (FW.run (c8trace.take 6) (FW.init 0)).time_data = [1] ∧
    (FW.run c8trace (FW.init 0)).time_data = [1, 3] := by
  refine ⟨?_, ?_⟩ <;>
    norm_num [c8trace, FW.run, FW.step, FW.toggle_current, FW.start_ramp, FW.setI,
      FW.update_plot, FW.init]

/-- C8, amended: the telemetry buffer is never cleared — session
activation (Toggle or Ramp) leaves the buffer untouched.  While a session
is active, each sampler tick appends exactly one sample, so k ticks append
exactly k samples to whatever the buffer already held, and the appended
elapsed times are non-decreasing whenever the tick times are. -/
theorem c8_amended (s : FW.State) (ch : ℕ) (ts : List ℚ) (t : ℚ)
    (h1 : s.autoTimerOn = true) (h2 : s.activeChannel = some ch)
    (hts : ts.Chain' (· ≤ ·)) :
    (FW.run (ts.map FW.Event.autoTick) s).time_data
        = s.time_data ++ ts.map (fun u => u - s.start_time) ∧
    (FW.run (ts.map FW.Event.autoTick) s).time_data.length
        = s.time_data.length + ts.length ∧
    (ts.map (fun u => u - s.start_time)).Chain' (· ≤ ·) ∧
    (FW.step (FW.Event.rampClick t) s).time_data = s.time_data ∧
    (FW.step (FW.Event.toggleOn t) s).time_data = s.time_data := by
  obtain ⟨hw, -, -⟩ := FW.run_auto_ticks ts s ch h1 h2
  refine ⟨hw, ?_, ?_, rfl, rfl⟩
  · rw [hw]; simp
  · rw [List.chain'_map]
    exact List.Chain'.imp (fun a b hab => sub_le_sub_right hab _) hts

/-- State of a ramp session on channel 1 with one sample already recorded,
used to witness C8's amended theorem. -/
def c8wState : FW.State :=
  FW.run [FW.Event.editRampMax (some 4), FW.Event.selectChannel 1,
    FW.Event.rampClick 0, FW.Event.autoTick 1] (FW.init 0)

/-- Witness for C8's amended theorem. -/
theorem c8_amended_witness :
    (c8wState.autoTimerOn = true ∧ c8wState.activeChannel = some 1 ∧
     ([1, 2, 2] : List ℚ).Chain' (· ≤ ·)) ∧
    ((FW.run (([1, 2, 2] : List ℚ).map FW.Event.autoTick) c8wState).time_data
        = c8wState.time_data ++ ([1, 2, 2] : List ℚ).map (fun u => u - c8wState.start_time) ∧
     (FW.run (([1, 2, 2] : List ℚ).map FW.Event.autoTick) c8wState).time_data.length
        = c8wState.time_data.length + ([1, 2, 2] : List ℚ).length ∧
     (([1, 2, 2] : List ℚ).map (fun u => u - c8wState.start_time)).Chain' (· ≤ ·) ∧
     (FW.step (FW.Event.rampClick 9) c8wState).time_data = c8wState.time_data ∧
     (FW.step (FW.Event.toggleOn 9) c8wState).time_data = c8wState.time_data) :=
  ⟨⟨rfl, rfl, by norm_num⟩, c8_amended c8wState 1 [1, 2, 2] 9 rfl rfl (by norm_num)⟩

/-- A sampler state on channel 1 whose realized value is 0.001 and whose
card label shows "0.00", exhibiting C9. -/
def c9state : G.State :=
  { activeChannel := some 1, driver := fun _ => 1 / 1000, label := fun _ => (false, 0),
    changedEvents := [], time_data := [], voltage_data := [], start_time := 0 }

/-- C9, counterexample: the sampler reads 0.001 on one tick and 0.002 on
the next — two consecutive differing reads, as the voltage log shows — yet
no "changed" event fires, because the code compares the two-decimal
rendered texts ("0.00 V" both times), not the read values; this refutes
"if the two consecutive read values differ, exactly one changed event
fires". -/
theorem c9_counterexample :
    (G.run [G.Event.autoTick 0, G.Event.devWrite 1 (2 / 1000), G.Event.autoTick 1]
        c9state).voltage_data = [1 / 1000, 2 / 1000] ∧
    (1 / 1000 : ℚ) ≠ 2 / 1000 ∧
    (G.run [G.Event.autoTick 0, G.Event.devWrite 1 (2 / 1000), G.Event.autoTick 1]
        c9state).changedEvents = [] := by
  refine ⟨?_, by norm_num, ?_⟩ <;>
    norm_num [c9state, G.run, G.step, G.auto_update, G.fmt2, G.roundHalfEven,
      Function.update, round_eq]

/-- C9, amended: change detection compares two-decimal rendered texts, not
values: after a tick has rendered the read value v1, a following tick
reading v2 fires no event when v1 = v2 (equal consecutive reads never
fire), more generally fires no event whenever fmt2 v1 = fmt2 v2 (the two
values render to the same text — same printed sign and same hundredths),
and fires exactly one event — carrying the new rendering — exactly when
fmt2 v1 ≠ fmt2 v2, which includes sign-only changes such as 1/1024 versus
-1/1024 rendering as "0.00" versus "-0.00". -/
theorem c9_amended (s : G.State) (ch : ℕ) (v1 v2 t1 t2 : ℚ)
    (hac : s.activeChannel = some ch) :
    ((v1 = v2 →
      (G.run [G.Event.devWrite ch v2, G.Event.autoTick t2]
          (G.run [G.Event.devWrite ch v1, G.Event.autoTick t1] s)).changedEvents
        = (G.run [G.Event.devWrite ch v1, G.Event.autoTick t1] s).changedEvents) ∧
     (G.fmt2 v1 = G.fmt2 v2 →
      (G.run [G.Event.devWrite ch v2, G.Event.autoTick t2]
          (G.run [G.Event.devWrite ch v1, G.Event.autoTick t1] s)).changedEvents
        = (G.run [G.Event.devWrite ch v1, G.Event.autoTick t1] s).changedEvents) ∧
     (G.fmt2 v1 ≠ G.fmt2 v2 →
      (G.run [G.Event.devWrite ch v2, G.Event.autoTick t2]
          (G.run [G.Event.devWrite ch v1, G.Event.autoTick t1] s)).changedEvents
        = (G.run [G.Event.devWrite ch v1, G.Event.autoTick t1] s).changedEvents
            ++ [(ch, G.fmt2 v2)])) := by
  have key : ∀ (v t : ℚ) (s' : G.State), s'.activeChannel = some ch →
      ((G.run [G.Event.devWrite ch v, G.Event.autoTick t] s').changedEvents
        = if s'.label ch = G.fmt2 v then s'.changedEvents
          else s'.changedEvents ++ [(ch, G.fmt2 v)]) ∧
      (G.run [G.Event.devWrite ch v, G.Event.autoTick t] s').label ch = G.fmt2 v ∧
      (G.run [G.Event.devWrite ch v, G.Event.autoTick t] s').activeChannel = some ch := by
    intro v t s' h
    refine ⟨?_, ?_, ?_⟩ <;>
      simp [G.run, G.step, G.auto_update, h, Function.update_same, ite_not]
  obtain ⟨hE1, hL1, hA1⟩ := key v1 t1 s hac
  obtain ⟨hE2, hL2, hA2⟩ := key v2 t2 _ hA1
  rw [hL1] at hE2
  refine ⟨?_, ?_, ?_⟩
  · intro h
    subst h
    rw [hE2]
    simp
  · intro h
    rw [hE2]
    simp [h]
  · intro h
    rw [hE2]
    simp [h]

/-- Witness for C9's amended theorem, at read values 1 and 2 on channel 1. -/
theorem c9_amended_witness :
    c9state.activeChannel = some 1 ∧
    (((1 : ℚ) = 2 →
      (G.run [G.Event.devWrite 1 2, G.Event.autoTick 1]
          (G.run [G.Event.devWrite 1 1, G.Event.autoTick 0] c9state)).changedEvents
        = (G.run [G.Event.devWrite 1 1, G.Event.autoTick 0] c9state).changedEvents) ∧
     (G.fmt2 1 = G.fmt2 2 →
      (G.run [G.Event.devWrite 1 2, G.Event.autoTick 1]
          (G.run [G.Event.devWrite 1 1, G.Event.autoTick 0] c9state)).changedEvents
        = (G.run [G.Event.devWrite 1 1, G.Event.autoTick 0] c9state).changedEvents) ∧
     (G.fmt2 1 ≠ G.fmt2 2 →
      (G.run [G.Event.devWrite 1 2, G.Event.autoTick 1]
          (G.run [G.Event.devWrite 1 1, G.Event.autoTick 0] c9state)).changedEvents
        = (G.run [G.Event.devWrite 1 1, G.Event.autoTick 0] c9state).changedEvents
            ++ [(1, G.fmt2 2)])) :=
  ⟨rfl, c9_amended c9state 1 1 2 0 1 rfl⟩
